import Mathlib

/-!
Formal model of the nicotine-deepl-translate plugin (src/__init__.py).

The plugin is a single Python module.  Pure helpers are translated to Lean
functions; the stateful event handlers are translated to functions from the
relevant plugin state (settings, conversation memory, the local login name)
and an oracle describing the outcome of the single HTTP call to functions
returning the new state together with the externally visible effects
(messages sent, lines echoed locally, text printed, background work
dispatched).  The network itself, being external, is an oracle value.

Unicode caveats: the Python predicates str.isalpha, str.strip, str.lower,
str.upper and the regex class backslash-s are Unicode-aware; they are
modelled by their ASCII restrictions (Char.isAlpha, an explicit ASCII
whitespace set, Char.toLower, Char.toUpper), which agree with Python on all
ASCII text and in particular on every literal the plugin manipulates.
-/

namespace DeeplTranslate

/-- ASCII whitespace characters recognized by the Python methods str.strip
and str.split and by the regex class backslash-s. -/
def pyIsSpace (c : Char) : Bool :=
  c == ' ' || c == '\t' || c == '\n' || c == '\r' || c == '\x0b' || c == '\x0c'

/-- Python str.strip with no arguments: remove leading and trailing
whitespace. -/
def pyStrip (s : String) : String :=
  String.mk (((s.data.dropWhile pyIsSpace).reverse.dropWhile pyIsSpace).reverse)

/-- Python `a or b` for strings: the empty string is falsy. -/
def pyOr (a b : String) : String := if a = "" then b else a

/-- Python str.lower, modelled character-wise (ASCII). -/
def pyToLower (s : String) : String := String.mk (s.data.map Char.toLower)

/-- Python str.upper, modelled character-wise (ASCII). -/
def pyToUpper (s : String) : String := String.mk (s.data.map Char.toUpper)

/-- Python str.startswith. -/
def pyStartsWith (pre s : String) : Bool := pre.data.isPrefixOf s.data

/-- Python str.endswith. -/
def pyEndsWith (suf s : String) : Bool := suf.data.isSuffixOf s.data

/-- Python substring test `needle in hay`. -/
def containsSub (needle hay : String) : Bool :=
  hay.data.tails.any (fun t => needle.data.isPrefixOf t)

/-- The single-quote character, written by code point so that the file
contains no bare quote character. -/
def sq : Char := Char.ofNat 39

/-- A string holding only the single-quote character. -/
def sqs : String := String.mk [sq]

/-- Conversation memory (the dictionaries self._last_public_message and
self._last_private_message): an association list from the room or peer key
to the pair (last sender, last message text). -/
abbrev Memory := List (String × (String × String))

/-- Dictionary lookup dict.get(k). -/
def mget (m : Memory) (k : String) : Option (String × String) :=
  (m.find? (fun p => p.1 == k)).map (fun p => p.2)

/-- Dictionary assignment dict[k] = v: the new binding shadows and replaces
any previous binding of k and leaves every other key unchanged. -/
def mset (m : Memory) (k : String) (v : String × String) : Memory :=
  (k, v) :: m.filter (fun p => p.1 != k)

/-- The plugin settings record (self.settings). -/
structure Settings where
  api_key : String
  target_lang : String
  preserve_formatting : Bool
  auto_translate_incoming : Bool
  auto_incoming_target_lang : String
  deriving DecidableEq

/-- One element of the translations list of a DeepL JSON payload; absent
dictionary keys are modelled as none. -/
structure TranslationObj where
  text : Option String
  detected_source_language : Option String
  deriving DecidableEq

/-- A successfully JSON-parsed DeepL response payload; the fields the code
reads are message and translations, absent keys are none. -/
structure Payload where
  message : Option String
  translations : Option (List TranslationObj)
  deriving DecidableEq

/-- Oracle for the single HTTP request of one translation call: the urlopen
call raises (transport error), or the body fails json.loads (parse error),
or a payload is parsed. -/
inductive NetResult where
  | transportError (err : String)
  | parseError
  | payload (p : Payload)
  deriving DecidableEq

/-- Model of the static method Plugin._looks_like_lang.  The per-character
Python test ch.isalpha() is modelled by Char.isAlpha. -/
def looks_like_lang (token : String) : Bool :=
  if token = "" || token.length > 10 then false
  else token.data.all (fun ch => ch.isAlpha || ch == '-' || ch == '_')

/-- Model of the static method Plugin._strip_wrapping_quotes: if the string
has length at least two and both starts and ends with the same quote
character (double first, then single), remove exactly that wrapping pair. -/
def strip_wrapping_quotes (text : String) : String :=
  if 2 ≤ text.length then
    if pyStartsWith "\"" text && pyEndsWith "\"" text then String.mk (text.data.drop 1).dropLast
    else if pyStartsWith sqs text && pyEndsWith sqs text then String.mk (text.data.drop 1).dropLast
    else text
  else text

/-- The message printed by _translate_via_deepl when no API key is set. -/
def unconfiguredMsg : String :=
  "DeepL API key not set. Open Preferences → Plugins → DeepL Translate to configure."

/-- The provider-error test of _translate_via_deepl: the payload has a
message key whose lower-cased value contains the substring error. -/
def deeplMsgError (p : Payload) : Bool :=
  match p.message with
  | some m => containsSub "error" (pyToLower m)
  | none => false

/-- Model of Plugin._translate_via_deepl (the user-facing variant): returns
the optional translated text, the list of lines printed via self.output,
and whether the blocking network request was attempted.  The request body
construction (urlencode of auth_key, text, target_lang,
preserve_formatting) has no observable effect in the model; the response
is the oracle. -/
def translate_via_deepl (s : Settings) (oracle : NetResult) :
    Option String × List String × Bool :=
  if pyStrip s.api_key = "" then (none, [unconfiguredMsg], false)
  else
    match oracle with
    | NetResult.transportError err => (none, ["DeepL request failed: " ++ err], true)
    | NetResult.parseError => (none, ["Failed to parse DeepL response"], true)
    | NetResult.payload p =>
      if deeplMsgError p then (none, ["DeepL error: " ++ p.message.getD ""], true)
      else
        match p.translations with
        | some (first :: _) => (some (first.text.getD ""), [], true)
        | _ => (none, ["DeepL returned no translations"], true)

/-- Model of Plugin._translate_and_detect (the silent variant): returns the
pair (translated text or none, detected source language or none) together
with whether the blocking network request was attempted; it never prints. -/
def translate_and_detect (s : Settings) (oracle : NetResult) :
    (Option String × Option String) × Bool :=
  if pyStrip s.api_key = "" then ((none, none), false)
  else
    match oracle with
    | NetResult.transportError _ => ((none, none), true)
    | NetResult.parseError => ((none, none), true)
    | NetResult.payload p =>
      match p.translations with
      | some (first :: _) => ((some (first.text.getD ""), first.detected_source_language), true)
      | _ => ((none, none), true)

/-- The deliver closure inside Plugin._async_translate: given the worker
result and the silent flag, returns some argument exactly when on_success
is invoked, carrying the argument it is invoked with. -/
def deliver (result : Option String × Option String) (silent : Bool) :
    Option (Option String × Option String) :=
  if result.1 == none && !silent then none else some result

/-- Execution contexts of the host: the main thread (event loop) and a
background worker thread created by Thread(target=worker, daemon=True). -/
inductive Ctx where
  | mainThread
  | workerThread
  deriving DecidableEq

/-- Observable scheduling events: the blocking urlopen call, and the
invocation of an on_success completion callback. -/
inductive ThreadEv where
  | blockingNetCall
  | onSuccessRun
  deriving DecidableEq

/-- Model of Plugin._async_translate: Thread(...).start() runs the worker
body, hence the blocking translate_and_detect network call, on a fresh
worker thread, and events.invoke_main_thread(deliver) runs deliver, hence
any on_success invocation, on the main thread.  The trace lists each event
with the context it executes on. -/
def async_translate_events (s : Settings) (oracle : NetResult) (silent : Bool) :
    List (Ctx × ThreadEv) :=
  let r := translate_and_detect s oracle
  (if r.2 then [(Ctx.workerThread, ThreadEv.blockingNetCall)] else []) ++
    (match deliver r.1 silent with
     | some _ => [(Ctx.mainThread, ThreadEv.onSuccessRun)]
     | none => [])

/-- Characters matched by the regex class of letters, hyphen and
underscore used for the shortcut token. -/
def isTokChar (c : Char) : Bool := c.isAlpha || c == '-' || c == '_'

/-- Greedily take at most n leading characters satisfying p, returning the
taken characters and the remainder. -/
def takeUpTo (p : Char → Bool) : Nat → List Char → List Char × List Char
  | _, [] => ([], [])
  | 0, l => ([], l)
  | n + 1, c :: cs =>
    if p c then
      let r := takeUpTo p n cs
      (c :: r.1, r.2)
    else ([], c :: cs)

/-- The regex tail of dot-star followed by the end anchor, without DOTALL:
the capture is the longest newline-free prefix, and the match succeeds
exactly when nothing, or a single final newline, remains after it. -/
def dotStarEnd (l : List Char) : Option (List Char) :=
  let m := l.takeWhile (fun c => c != '\n')
  match l.drop m.length with
  | [] => some m
  | ['\n'] => some m
  | _ => none

/-- Backtracking over how many whitespace characters the greedy whitespace
star consumes before the final dot-star capture, trying the largest count
first. -/
def wsBt (tail : List Char) : Nat → Option (List Char)
  | 0 => dotStarEnd tail
  | k + 1 =>
    match dotStarEnd (tail.drop (k + 1)) with
    | some g => some g
    | none => wsBt tail k

/-- The sub-match for whitespace-star followed by the dot-star capture and
the end anchor. -/
def wsDotStar (tail : List Char) : Option (List Char) :=
  wsBt tail ((tail.takeWhile pyIsSpace).length)

/-- Model of re.match of the shortcut pattern: anchored at the start,
optional whitespace, an at-sign, one ASCII letter followed greedily by one
to nine further letters, hyphens or underscores (group one), then optional
whitespace and the rest of the line (group two).  Returns the captured
groups on success. -/
def shortcutMatch (line : String) : Option (String × String) :=
  match line.data.dropWhile pyIsSpace with
  | '@' :: c :: rest =>
    if c.isAlpha then
      let t := takeUpTo isTokChar 9 rest
      if t.1 = [] then none
      else
        match wsDotStar t.2 with
        | some g2 => some (String.mk (c :: t.1), String.mk g2)
        | none => none
    else none
  | _ => none

/-- The conversation context an event handler runs for: a chatroom or a
private chat with a peer. -/
inductive Context where
  | chatroom (room : String)
  | privateChat (user : String)
  deriving DecidableEq

/-- A background translation dispatched through _async_translate, recording
the call site (which closure was passed as on_success) and the captured
data: the source text handed to the worker, the target language, and the
conversation context. -/
inductive Dispatch where
  | shortcutSend (text target : String) (ctx : Context)
  | shortcutEchoLast (lastText target lastUser : String) (ctx : Context)
  | incomingAuto (line target user : String) (ctx : Context)
  deriving DecidableEq

/-- Externally visible effects on the host chat client. -/
inductive Action where
  | sendPublic (room text : String)
  | sendPrivate (user text : String)
  | echoPublic (room text : String)
  | echoPrivate (user text : String)
  | printOutput (text : String)
  deriving DecidableEq

/-- Whether an action transmits a message over the network (send_public or
send_private), as opposed to a purely local echo or print. -/
def Action.isSend : Action → Bool
  | Action.sendPublic _ _ => true
  | Action.sendPrivate _ _ => true
  | _ => false

/-- The source text captured by a dispatch (the first argument of the
corresponding _async_translate call). -/
def Dispatch.sourceText : Dispatch → String
  | Dispatch.shortcutSend t _ _ => t
  | Dispatch.shortcutEchoLast lt _ _ _ => lt
  | Dispatch.incomingAuto line _ _ _ => line

/-- The target language captured by a dispatch. -/
def Dispatch.targetLang : Dispatch → String
  | Dispatch.shortcutSend _ tg _ => tg
  | Dispatch.shortcutEchoLast _ tg _ _ => tg
  | Dispatch.incomingAuto _ tg _ _ => tg

/-- The silent flag of the _async_translate call that created the dispatch:
true only for incoming auto-translation. -/
def Dispatch.silent : Dispatch → Bool
  | Dispatch.incomingAuto _ _ _ _ => true
  | _ => false

/-- The Python truthiness test on the detected language followed by the
English prefix test: detected and detected.upper().startswith of EN. -/
def enFamily (detected : Option String) : Bool :=
  match detected with
  | some d => d != "" && pyStartsWith "EN" (pyToUpper d)
  | none => false

/-- The label fragment showing the detected language: the detected code if
truthy, else a question mark, upper-cased. -/
def detLabel (detected : Option String) : String :=
  pyToUpper (pyOr (detected.getD "") "?")

/-- The on_success closures of the plugin, as a function of the dispatch
that created them and the result pair they are invoked with. -/
def dispatchCallback (d : Dispatch) (result : Option String × Option String) :
    List Action :=
  match d with
  | Dispatch.shortcutSend _ _ ctx =>
    match result.1 with
    | some t =>
      if t = "" then []
      else
        let tr := strip_wrapping_quotes (pyStrip t)
        match ctx with
        | Context.chatroom room => [Action.sendPublic room tr]
        | Context.privateChat user => [Action.sendPrivate user tr]
    | none => []
  | Dispatch.shortcutEchoLast _ target lastUser ctx =>
    match result.1 with
    | some t =>
      if t = "" then []
      else
        let tr := strip_wrapping_quotes (pyStrip t)
        let line := "[" ++ target ++ "] " ++ lastUser ++ ": " ++ tr
        match ctx with
        | Context.chatroom room => [Action.echoPublic room line]
        | Context.privateChat user => [Action.echoPrivate user line]
    | none => []
  | Dispatch.incomingAuto srcLine target user ctx =>
    match result.1 with
    | some t =>
      if t = "" then []
      else if enFamily result.2 || pyStrip t == pyStrip srcLine then []
      else
        let line := "[" ++ detLabel result.2 ++ "→" ++ target ++ "] " ++ user ++ ": " ++ t
        match ctx with
        | Context.chatroom room => [Action.echoPublic room line]
        | Context.privateChat u => [Action.echoPrivate u line]
    | none => []

/-- End-to-end behaviour of one dispatched background translation: the
worker result, the deliver filter, then the on_success closure. -/
def runDispatch (s : Settings) (oracle : NetResult) (d : Dispatch) : List Action :=
  match deliver (translate_and_detect s oracle).1 d.silent with
  | some r => dispatchCallback d r
  | none => []

/-- Result of Plugin._handle_outgoing_shortcut: the boolean the method
returns, the background translation it dispatched (if any), and the lines
it printed. -/
structure ShortcutOutcome where
  handled : Bool
  dispatched : Option Dispatch
  outputs : List String
  deriving DecidableEq

/-- Model of Plugin._handle_outgoing_shortcut. -/
def handle_outgoing_shortcut (memPub memPriv : Memory) (line : String)
    (ctx : Context) : ShortcutOutcome :=
  match shortcutMatch line with
  | none => ⟨false, none, []⟩
  | some (target, g2) =>
    let rest := pyStrip g2
    if !looks_like_lang target then ⟨false, none, []⟩
    else if rest != "" then ⟨true, some (Dispatch.shortcutSend rest target ctx), []⟩
    else
      match ctx with
      | Context.chatroom room =>
        match mget memPub room with
        | none => ⟨true, none, ["No recent message to translate"]⟩
        | some last =>
          ⟨true, some (Dispatch.shortcutEchoLast last.2 target last.1 (Context.chatroom room)), []⟩
      | Context.privateChat user =>
        match mget memPriv user with
        | none => ⟨true, none, ["No recent message to translate"]⟩
        | some last =>
          ⟨true, some (Dispatch.shortcutEchoLast last.2 target last.1 (Context.privateChat user)), []⟩

/-- Model of Plugin.outgoing_public_chat_event: the host return value (the
zap sentinel suppresses transmission of the original line; none lets it
through) together with the effects of the handler. -/
def outgoing_public_chat_event (memPub memPriv : Memory) (room line : String) :
    Option String × ShortcutOutcome :=
  let o := handle_outgoing_shortcut memPub memPriv line (Context.chatroom room)
  ((if o.handled then some "zap" else none), o)

/-- Model of Plugin.outgoing_private_chat_event. -/
def outgoing_private_chat_event (memPub memPriv : Memory) (user line : String) :
    Option String × ShortcutOutcome :=
  let o := handle_outgoing_shortcut memPub memPriv line (Context.privateChat user)
  ((if o.handled then some "zap" else none), o)

/-- Model of Plugin.incoming_public_chat_notification: updates the public
conversation memory and returns the background translation it dispatches,
if any. -/
def incoming_public_chat_notification (login : String) (s : Settings)
    (memPub : Memory) (room user line : String) : Memory × Option Dispatch :=
  let memPub1 := if user != login then mset memPub room (user, line) else memPub
  if !s.auto_translate_incoming then (memPub1, none)
  else if user == login then (memPub1, none)
  else
    let target := pyOr s.auto_incoming_target_lang "EN-GB"
    (memPub1, some (Dispatch.incomingAuto line target user (Context.chatroom room)))

/-- Model of Plugin.incoming_private_chat_notification. -/
def incoming_private_chat_notification (login : String) (s : Settings)
    (memPriv : Memory) (user line : String) : Memory × Option Dispatch :=
  let memPriv1 := if user != login then mset memPriv user (user, line) else memPriv
  if !s.auto_translate_incoming then (memPriv1, none)
  else if user == login then (memPriv1, none)
  else
    let target := pyOr s.auto_incoming_target_lang "EN-GB"
    (memPriv1, some (Dispatch.incomingAuto line target user (Context.privateChat user)))

/-- States of the shlex lexer as used by shlex.split (POSIX mode,
whitespace_split on, comment characters disabled): between tokens, inside
a plain word, inside single quotes, inside double quotes, and the two
escape states remembering whether the backslash was seen in a word or
inside double quotes. -/
inductive ShState where
  | ws | word | inSq | inDq | escWord | escDq
  deriving DecidableEq

/-- Whitespace set of the shlex lexer. -/
def shlexWs (c : Char) : Bool := c == ' ' || c == '\t' || c == '\r' || c == '\n'

/-- The shlex read loop.  Arguments: remaining input, state, current token
(reversed), whether the current token saw a quote, emitted tokens
(reversed).  An error value models the ValueError raised on an unbalanced
quote or a trailing escape character. -/
def shlexRun : List Char → ShState → List Char → Bool → List (List Char) →
    Except Unit (List (List Char))
  | [], st, tok, quoted, acc =>
    match st with
    | ShState.inSq => Except.error ()
    | ShState.inDq => Except.error ()
    | ShState.escWord => Except.error ()
    | ShState.escDq => Except.error ()
    | _ =>
      if tok != [] || quoted then Except.ok (tok.reverse :: acc).reverse
      else Except.ok acc.reverse
  | c :: cs, ShState.ws, tok, quoted, acc =>
    if shlexWs c then shlexRun cs ShState.ws [] false acc
    else if c == '\\' then shlexRun cs ShState.escWord tok quoted acc
    else if c == sq then shlexRun cs ShState.inSq tok true acc
    else if c == '"' then shlexRun cs ShState.inDq tok true acc
    else shlexRun cs ShState.word (c :: tok) quoted acc
  | c :: cs, ShState.word, tok, quoted, acc =>
    if shlexWs c then
      if tok != [] || quoted then shlexRun cs ShState.ws [] false (tok.reverse :: acc)
      else shlexRun cs ShState.ws [] false acc
    else if c == sq then shlexRun cs ShState.inSq tok true acc
    else if c == '"' then shlexRun cs ShState.inDq tok true acc
    else if c == '\\' then shlexRun cs ShState.escWord tok quoted acc
    else shlexRun cs ShState.word (c :: tok) quoted acc
  | c :: cs, ShState.inSq, tok, quoted, acc =>
    if c == sq then shlexRun cs ShState.word tok quoted acc
    else shlexRun cs ShState.inSq (c :: tok) quoted acc
  | c :: cs, ShState.inDq, tok, quoted, acc =>
    if c == '"' then shlexRun cs ShState.word tok quoted acc
    else if c == '\\' then shlexRun cs ShState.escDq tok quoted acc
    else shlexRun cs ShState.inDq (c :: tok) quoted acc
  | c :: cs, ShState.escWord, tok, quoted, acc =>
    shlexRun cs ShState.word (c :: tok) quoted acc
  | c :: cs, ShState.escDq, tok, quoted, acc =>
    if c != '\\' && c != '"' then shlexRun cs ShState.inDq (c :: '\\' :: tok) quoted acc
    else shlexRun cs ShState.inDq (c :: tok) quoted acc

/-- Model of shlex.split on the argument string, the ValueError escape
modelled as an error value. -/
def shlexSplit (s : String) : Except Unit (List String) :=
  (shlexRun s.data ShState.ws [] false []).map (fun ts => ts.map String.mk)

/-- Helper for pySplitWs: words of a character list, splitting on
whitespace runs; the second argument accumulates the current word in
reverse. -/
def splitWsAux : List Char → List Char → List (List Char)
  | [], cur => if cur = [] then [] else [cur.reverse]
  | c :: cs, cur =>
    if pyIsSpace c then
      if cur = [] then splitWsAux cs []
      else cur.reverse :: splitWsAux cs []
    else splitWsAux cs (c :: cur)

/-- Python str.split with no arguments: split on whitespace runs, dropping
empty pieces. -/
def pySplitWs (s : String) : List String :=
  (splitWsAux s.data []).map String.mk

/-- The module constant PLUGIN_VERSION. -/
def PLUGIN_VERSION : String := "0.3.4"

/-- The line printed by version_command. -/
def versionMsg : String := "DeepL Translate v" ++ PLUGIN_VERSION

/-- The text printed by translate_help_command, assembled from the current
settings. -/
def helpText (s : Settings) : String :=
  let auto_on := if s.auto_translate_incoming then "on" else "off"
  String.intercalate "\n"
    [ versionMsg
    , ""
    , "Outgoing default target: " ++ s.target_lang
    , "Incoming auto-translate: " ++ auto_on ++ " → " ++ s.auto_incoming_target_lang
    , ""
    , "Usage:"
    , "  /tr [TARGET_LANG] <text..>         send translation"
    , "  /tr [TARGET_LANG]                  translate latest msg (local-only)"
    , "  @LANG text                         inline shortcut; sends translation"
    , "  @LANG                              translate latest msg (local-only)"
    , ""
    , "Utilities:"
    , "  /tri <TARGET_LANG>                 set incoming auto target"
    , "  /trver                              show version"
    , "  /tr help                            this help"
    , ""
    , "Examples:"
    , "  /tr FR how are you"
    , "  /tr \"DE\" \"how are you\""
    , "  @ES buenos dias"
    , "  @EN-GB"
    ]

/-- Result of Plugin.translate_command: the boolean the method returns,
the lines printed via self.output, the chat effects, and whether the
blocking network request was attempted. -/
structure CmdOutcome where
  ret : Bool
  outputs : List String
  actions : List Action
  netAttempted : Bool
  deriving DecidableEq

/-- Model of Plugin.translate_command.  The method runs synchronously: any
network request it makes happens inline via _translate_via_deepl. -/
def translate_command (s : Settings) (memPub memPriv : Memory)
    (oracle : NetResult) (args : String) (user room : Option String) :
    CmdOutcome :=
  let lowered := pyToLower (pyStrip args)
  if lowered == "version" || lowered == "-v" || lowered == "--version" then
    ⟨true, [versionMsg], [], false⟩
  else if lowered == "help" || lowered == "-h" || lowered == "--help" || lowered == "?" then
    ⟨true, [helpText s], [], false⟩
  else
    let tokens :=
      match shlexSplit args with
      | Except.ok ts => ts
      | Except.error _ => pySplitWs args
    match tokens with
    | [] => ⟨false, ["Usage: /translate [TARGET_LANG] <text..>"], [], false⟩
    | first :: restTokens =>
      let first_clean := strip_wrapping_quotes first
      let text :=
        if looks_like_lang first_clean then String.intercalate " " restTokens
        else String.intercalate " " (first :: restTokens)
      if pyStrip text = "" then
        match room with
        | some r =>
          match mget memPub r with
          | none => ⟨false, ["No recent message to translate"], [], false⟩
          | some _ =>
            let v := translate_via_deepl s oracle
            match v.1 with
            | none => ⟨false, v.2.1, [], v.2.2⟩
            | some tr =>
              ⟨true, v.2.1, [Action.echoPublic r (strip_wrapping_quotes (pyStrip tr))], v.2.2⟩
        | none =>
          match user with
          | some u =>
            match mget memPriv u with
            | none => ⟨false, ["No recent message to translate"], [], false⟩
            | some _ =>
              let v := translate_via_deepl s oracle
              match v.1 with
              | none => ⟨false, v.2.1, [], v.2.2⟩
              | some tr =>
                ⟨true, v.2.1, [Action.echoPrivate u (strip_wrapping_quotes (pyStrip tr))], v.2.2⟩
          | none => ⟨false, ["Nothing to translate"], [], false⟩
      else
        let v := translate_via_deepl s oracle
        match v.1 with
        | none => ⟨false, v.2.1, [], v.2.2⟩
        | some tr =>
          let tr2 := strip_wrapping_quotes (pyStrip tr)
          match room with
          | some r => ⟨true, v.2.1, [Action.sendPublic r tr2], v.2.2⟩
          | none =>
            match user with
            | some u => ⟨true, v.2.1, [Action.sendPrivate u tr2], v.2.2⟩
            | none => ⟨true, v.2.1 ++ [tr2], [], v.2.2⟩

/-- Scheduling trace of translate_command: the command callback runs
inline on whatever context invokes it, so its blocking network call (when
attempted) runs on that same context. -/
def translate_command_events (caller : Ctx) (s : Settings)
    (memPub memPriv : Memory) (oracle : NetResult) (args : String)
    (user room : Option String) : List (Ctx × ThreadEv) :=
  if (translate_command s memPub memPriv oracle args user room).netAttempted then
    [(caller, ThreadEv.blockingNetCall)]
  else []

/-! Helper lemmas. -/

theorem string_eq_empty_iff (s : String) : s = "" ↔ s.data = [] := by
  constructor
  · intro h
    rw [h]
  · intro h
    cases s with
    | mk l =>
      simp only [String.data] at h
      subst h
      rfl

/-- The wrapping test of strip_wrapping_quotes: length at least two and
matching double or single quotes at both ends. -/
def isWrappedPair (t : String) : Bool :=
  2 ≤ t.length &&
    ((pyStartsWith "\"" t && pyEndsWith "\"" t) || (pyStartsWith sqs t && pyEndsWith sqs t))

theorem strip_of_not_wrapped (t : String) (h : isWrappedPair t = false) :
    strip_wrapping_quotes t = t := by
  unfold isWrappedPair at h
  unfold strip_wrapping_quotes
  split_ifs with h1 h2 h3
  · simp [h1, h2] at h
  · simp [h1, h2, h3] at h
  · rfl
  · rfl

theorem detect_fail_pair (s : Settings) (oracle : NetResult)
    (h : (translate_and_detect s oracle).1.1 = none) :
    (translate_and_detect s oracle).1 = (none, none) := by
  by_cases hk : pyStrip s.api_key = ""
  · simp [translate_and_detect, hk]
  · cases oracle with
    | transportError e => simp [translate_and_detect, hk]
    | parseError => simp [translate_and_detect, hk]
    | payload p =>
      rcases p with ⟨msg, tr⟩
      rcases tr with _ | ⟨_ | ⟨f, rest⟩⟩
      · simp [translate_and_detect, hk]
      · simp [translate_and_detect, hk]
      · simp [translate_and_detect, hk] at h

/-! Claim theorems. -/

theorem looks_like_lang_spec (s : String) :
    looks_like_lang s = true ↔
      (1 ≤ s.length ∧ s.length ≤ 10 ∧
        ∀ c ∈ s.data, (c.isAlpha = true ∨ c = '-' ∨ c = '_')) := by
  unfold looks_like_lang
  by_cases h0 : s = ""
  · subst h0
    decide
  · have hd : s.data ≠ [] := by
      intro hnil
      exact h0 ((string_eq_empty_iff s).mpr hnil)
    have hlen : 1 ≤ s.length := List.length_pos.mpr hd
    by_cases h10 : s.length > 10
    · have hcond : ((decide (s = "") || decide (s.length > 10)) = true) := by
        simp [h10]
      rw [if_pos hcond]
      constructor
      · intro h
        exact absurd h (by simp)
      · rintro ⟨-, hle, -⟩
        exact absurd h10 (by omega)
    · have hcond : ¬((decide (s = "") || decide (s.length > 10)) = true) := by
        simp [h0, h10]
      rw [if_neg hcond]
      rw [List.all_eq_true]
      constructor
      · intro h
        refine ⟨hlen, by omega, fun c hc => ?_⟩
        simpa [or_assoc] using h c hc
      · rintro ⟨-, -, h⟩
        intro c hc
        simpa [or_assoc] using h c hc

/-- Claim C3: the language-token validator accepts a string exactly when
its length is between one and ten and every character is a letter, a
hyphen or an underscore (the Python per-character test isalpha is modelled
by Char.isAlpha); in particular it rejects the empty string, any longer
string, and any string with another character. -/
theorem c3_looks_like_lang_iff (s : String) :
    looks_like_lang s = true ↔
      (1 ≤ s.length ∧ s.length ≤ 10 ∧
        ∀ c ∈ s.data, (c.isAlpha = true ∨ c = '-' ∨ c = '_')) :=
  looks_like_lang_spec s

/-- Claim C3, witness: a concrete accepted token. -/
theorem c3_witness : looks_like_lang "EN-GB" = true :=
  (c3_looks_like_lang_iff "EN-GB").mpr (by decide)

/-- Claim C4 (amended): the quote normalizer strips exactly one wrapping
layer, hence is idempotent on every string whose normalized form is not
itself wrapped in matching quotes, normalizes a double- or single-quoted
hello to hello, and leaves a string with one unmatched single quote
unchanged; it is not idempotent in general (see the counterexample). -/
theorem c4_strip_one_layer :
    (∀ s : String, isWrappedPair (strip_wrapping_quotes s) = false →
      strip_wrapping_quotes (strip_wrapping_quotes s) = strip_wrapping_quotes s)
    ∧ strip_wrapping_quotes "\"hello\"" = "hello"
    ∧ strip_wrapping_quotes (sqs ++ "hello" ++ sqs) = "hello"
    ∧ strip_wrapping_quotes ("it" ++ sqs ++ "s") = "it" ++ sqs ++ "s" :=
  ⟨fun _ h => strip_of_not_wrapped _ h, by decide, by decide, by decide⟩

/-- Claim C4, counterexample to the claim as stated: the normalizer is not
idempotent, since a doubly quoted string loses one layer per application. -/
theorem c4_counterexample :
    strip_wrapping_quotes (strip_wrapping_quotes "\"\"hi\"\"") ≠
      strip_wrapping_quotes "\"\"hi\"\"" := by decide

/-- Claim C4, witness: the amended idempotence applied at a concrete
unwrapped string. -/
theorem c4_witness :
    strip_wrapping_quotes (strip_wrapping_quotes "abc") = strip_wrapping_quotes "abc" :=
  c4_strip_one_layer.1 "abc" (by decide)

/-- Claim C6: with an empty API key both translation variants fail fast
without attempting the network request; the user-facing variant prints the
unconfigured message and returns no text, the silent variant returns the
absent pair with no output at all. -/
theorem c6_empty_key_no_network (s : Settings) (oracle : NetResult)
    (h : s.api_key = "") :
    translate_via_deepl s oracle = (none, [unconfiguredMsg], false)
    ∧ translate_and_detect s oracle = ((none, none), false) := by
  have hs : pyStrip s.api_key = "" := by rw [h]; rfl
  constructor
  · simp [translate_via_deepl, hs]
  · simp [translate_and_detect, hs]

/-- Claim C6, witness at a concrete empty-key configuration. -/
theorem c6_witness :
    translate_via_deepl ⟨"", "DE", true, true, "EN-GB"⟩ NetResult.parseError =
      (none, [unconfiguredMsg], false)
    ∧ translate_and_detect ⟨"", "DE", true, true, "EN-GB"⟩ NetResult.parseError =
      ((none, none), false) :=
  c6_empty_key_no_network _ _ rfl

/-- Claim C2: for a dispatched background translation, the deliver closure
skips on_success when the translated text is absent and silent is false,
invokes on_success with the absent pair (none, none) when silent is true,
and invokes on_success with the (text, detected) pair when translated text
is present. -/
theorem c2_async_delivery (s : Settings) (oracle : NetResult) (silent : Bool) :
    ((translate_and_detect s oracle).1.1 = none → silent = false →
      deliver (translate_and_detect s oracle).1 silent = none)
    ∧ ((translate_and_detect s oracle).1.1 = none → silent = true →
      deliver (translate_and_detect s oracle).1 silent = some (none, none))
    ∧ (∀ t, (translate_and_detect s oracle).1.1 = some t →
      deliver (translate_and_detect s oracle).1 silent =
        some (some t, (translate_and_detect s oracle).1.2)) := by
  refine ⟨?_, ?_, ?_⟩
  · intro h hs
    simp [deliver, h, hs]
  · intro h hs
    rw [detect_fail_pair s oracle h]
    simp [deliver, hs]
  · intro t h
    have hne : deliver (translate_and_detect s oracle).1 silent =
        some (translate_and_detect s oracle).1 := by
      simp [deliver, h]
    rw [hne, ← h]

/-- Claim C2, witness: a failing transport with silent mode delivers the
absent pair. -/
theorem c2_witness :
    deliver (translate_and_detect ⟨"k", "DE", true, true, "EN-GB"⟩
      (NetResult.transportError "boom")).1 true = some (none, none) :=
  (c2_async_delivery _ _ true).2.1 (by decide) rfl

/-- Claim C5 (amended): for every successfully parsed payload, the
detection variant returns the first translation text and detected
language when the translations list is non-empty and the absent pair when
it is empty or missing; the user-facing variant behaves the same except
that it first fails when the payload carries a message containing the
substring error (case-insensitively), and on an empty or absent list it
fails rather than returning empty text. -/
theorem c5_payload_extraction (s : Settings) (p : Payload)
    (hkey : pyStrip s.api_key ≠ "") :
    (∀ first rest, p.translations = some (first :: rest) →
      (translate_and_detect s (NetResult.payload p)).1 =
        (some (first.text.getD ""), first.detected_source_language)
      ∧ (deeplMsgError p = false →
        (translate_via_deepl s (NetResult.payload p)).1 = some (first.text.getD "")))
    ∧ ((p.translations = none ∨ p.translations = some []) →
      (translate_and_detect s (NetResult.payload p)).1 = (none, none)
      ∧ (translate_via_deepl s (NetResult.payload p)).1 = none) := by
  constructor
  · intro first rest htr
    constructor
    · simp [translate_and_detect, hkey, htr]
    · intro hmsg
      simp [translate_via_deepl, hkey, hmsg, htr]
  · intro htr
    have hdet : (translate_and_detect s (NetResult.payload p)).1 = (none, none) := by
      rcases htr with h | h <;> simp [translate_and_detect, hkey, h]
    refine ⟨hdet, ?_⟩
    by_cases hm : deeplMsgError p
    · simp [translate_via_deepl, hkey, hm]
    · rcases htr with h | h <;> simp [translate_via_deepl, hkey, hm, h]

/-- Claim C5, counterexample to the claim as stated: a parsed payload with
a non-empty translations list on which the user-facing client nonetheless
returns failure, because the payload also carries an error message. -/
theorem c5_counterexample :
    (Payload.mk (some "Internal error") (some [⟨some "Hallo", some "EN"⟩])).translations =
      some [⟨some "Hallo", some "EN"⟩]
    ∧ (translate_via_deepl ⟨"k", "DE", true, true, "EN-GB"⟩
        (NetResult.payload ⟨some "Internal error", some [⟨some "Hallo", some "EN"⟩]⟩)).1 =
      none := by decide

/-- Claim C5, witness: extraction of the first translation at a concrete
payload. -/
theorem c5_witness :
    (translate_and_detect ⟨"k", "DE", true, true, "EN-GB"⟩
      (NetResult.payload ⟨none, some [⟨some "Hallo", some "DE"⟩]⟩)).1 =
      (some "Hallo", some "DE") :=
  ((c5_payload_extraction ⟨"k", "DE", true, true, "EN-GB"⟩
      ⟨none, some [⟨some "Hallo", some "DE"⟩]⟩ (by decide)).1
    ⟨some "Hallo", some "DE"⟩ [] rfl).1

theorem mget_mset_self (m : Memory) (k : String) (v : String × String) :
    mget (mset m k v) k = some v := by
  simp [mget, mset]

theorem find?_filter_ne (k k' : String) (h : k' ≠ k) (m : Memory) :
    (m.filter (fun p => p.1 != k)).find? (fun p => p.1 == k') =
      m.find? (fun p => p.1 == k') := by
  induction m with
  | nil => rfl
  | cons a as ih =>
    by_cases ha : a.1 = k'
    · have hk : (a.1 != k) = true := by simp [ha, h]
      simp [List.filter_cons, hk, List.find?_cons, ha, h]
    · have ha' : (a.1 == k') = false := by simp [ha]
      by_cases hk : (a.1 != k) = true
      · simp [List.filter_cons, hk, List.find?_cons, ha', ih]
      · simp [List.filter_cons, hk, List.find?_cons, ha', ih]

theorem mget_mset_other (m : Memory) (k k' : String) (v : String × String)
    (h : k' ≠ k) : mget (mset m k v) k' = mget m k' := by
  unfold mget mset
  have hk : (k == k') = false := by
    simp
    exact fun he => h he.symm
  simp [List.find?_cons, hk, find?_filter_ne k k' h m]

theorem incoming_public_mem (login : String) (s : Settings) (memPub : Memory)
    (room user line : String) :
    (incoming_public_chat_notification login s memPub room user line).1 =
      if user ≠ login then mset memPub room (user, line) else memPub := by
  by_cases h : user = login <;>
    by_cases ha : s.auto_translate_incoming = true <;>
      simp [incoming_public_chat_notification, h, ha]

theorem incoming_private_mem (login : String) (s : Settings) (memPriv : Memory)
    (user line : String) :
    (incoming_private_chat_notification login s memPriv user line).1 =
      if user ≠ login then mset memPriv user (user, line) else memPriv := by
  by_cases h : user = login <;>
    by_cases ha : s.auto_translate_incoming = true <;>
      simp [incoming_private_chat_notification, h, ha]

/-- Claim C9: on an incoming public or private line, the conversation
memory entry for the room or peer key is overwritten with (sender, text)
exactly when the sender differs from the local login identity, other keys
are untouched, and a line from the local user changes nothing. -/
theorem c9_memory_overwrite (login : String) (s : Settings)
    (memPub memPriv : Memory) (room user line : String) :
    (user ≠ login →
      mget (incoming_public_chat_notification login s memPub room user line).1 room =
        some (user, line)
      ∧ (∀ k, k ≠ room →
          mget (incoming_public_chat_notification login s memPub room user line).1 k =
            mget memPub k)
      ∧ mget (incoming_private_chat_notification login s memPriv user line).1 user =
        some (user, line)
      ∧ (∀ k, k ≠ user →
          mget (incoming_private_chat_notification login s memPriv user line).1 k =
            mget memPriv k))
    ∧ (user = login →
      (incoming_public_chat_notification login s memPub room user line).1 = memPub
      ∧ (incoming_private_chat_notification login s memPriv user line).1 = memPriv) := by
  constructor
  · intro h
    rw [incoming_public_mem, incoming_private_mem, if_pos h, if_pos h]
    exact ⟨mget_mset_self _ _ _, fun k hk => mget_mset_other _ _ _ _ hk,
      mget_mset_self _ _ _, fun k hk => mget_mset_other _ _ _ _ hk⟩
  · intro h
    rw [incoming_public_mem, incoming_private_mem, if_neg (by simp [h]),
      if_neg (by simp [h])]
    exact ⟨rfl, rfl⟩

/-- Claim C9, witness at a concrete incoming line from another user. -/
theorem c9_witness :
    mget (incoming_public_chat_notification "me" ⟨"k", "DE", true, true, "EN-GB"⟩
      [] "r" "bob" "hola").1 "r" = some ("bob", "hola") :=
  ((c9_memory_overwrite "me" ⟨"k", "DE", true, true, "EN-GB"⟩ [] [] "r" "bob" "hola").1
    (by decide)).1

/-- Claim C1 (amended): every translation dispatched through
_async_translate runs its blocking network call only on the background
worker thread and its on_success callback only on the main thread, while
the synchronous translate_command performs its blocking network call on
whatever context invokes the command. -/
theorem c1_execution_contexts (s : Settings) (oracle : NetResult) (silent : Bool)
    (caller : Ctx) (memPub memPriv : Memory) (args : String)
    (user room : Option String) :
    (∀ e ∈ async_translate_events s oracle silent,
      (e.2 = ThreadEv.blockingNetCall → e.1 = Ctx.workerThread)
      ∧ (e.2 = ThreadEv.onSuccessRun → e.1 = Ctx.mainThread))
    ∧ (∀ e ∈ translate_command_events caller s memPub memPriv oracle args user room,
      e.1 = caller ∧ e.2 = ThreadEv.blockingNetCall) := by
  constructor
  · intro e he
    unfold async_translate_events at he
    rw [List.mem_append] at he
    rcases he with he | he
    · split at he
      · simp at he
        subst he
        decide
      · simp at he
    · split at he
      · simp at he
        subst he
        decide
      · simp at he
  · intro e he
    unfold translate_command_events at he
    split at he
    · simp at he
      subst he
      exact ⟨rfl, rfl⟩
    · simp at he

/-- Claim C1, counterexample to the claim as stated: the explicit
translate command, invoked on the main context, performs the blocking
network call on that same main context. -/
theorem c1_counterexample :
    (Ctx.mainThread, ThreadEv.blockingNetCall) ∈
      translate_command_events Ctx.mainThread ⟨"k", "DE", true, true, "EN-GB"⟩ [] []
        (NetResult.payload ⟨none, some [⟨some "Hallo", some "EN"⟩]⟩)
        "hola amigo" none (some "roomA") := by decide

/-- Claim C1, witness: a dispatched background translation runs its
network call on the worker thread. -/
theorem c1_witness :
    (Ctx.workerThread, ThreadEv.blockingNetCall).1 = Ctx.workerThread :=
  ((c1_execution_contexts ⟨"k", "DE", true, true, "EN-GB"⟩ NetResult.parseError true
      Ctx.mainThread [] [] "x" none none).1
    (Ctx.workerThread, ThreadEv.blockingNetCall) (by decide)).1 rfl

theorem takeUpTo_all (p : Char → Bool) :
    ∀ (n : Nat) (l : List Char), ∀ c ∈ (takeUpTo p n l).1, p c = true := by
  intro n l
  induction l generalizing n with
  | nil => intro c hc; simp [takeUpTo] at hc
  | cons a as ih =>
    intro c hc
    cases n with
    | zero => simp [takeUpTo] at hc
    | succ m =>
      simp only [takeUpTo] at hc
      by_cases hp : p a = true
      · rw [if_pos hp] at hc
        simp only [List.mem_cons] at hc
        rcases hc with rfl | hc
        · exact hp
        · exact ih m c hc
      · rw [if_neg hp] at hc
        simp at hc

theorem takeUpTo_length (p : Char → Bool) :
    ∀ (n : Nat) (l : List Char), (takeUpTo p n l).1.length ≤ n := by
  intro n l
  induction l generalizing n with
  | nil => simp [takeUpTo]
  | cons a as ih =>
    cases n with
    | zero => simp [takeUpTo]
    | succ m =>
      simp only [takeUpTo]
      by_cases hp : p a = true
      · rw [if_pos hp]
        simpa using Nat.succ_le_succ (ih m)
      · rw [if_neg hp]
        simp

theorem shortcutMatch_token (line t g2 : String)
    (h : shortcutMatch line = some (t, g2)) :
    ∃ c tok, t = String.mk (c :: tok) ∧ c.isAlpha = true ∧ tok ≠ [] ∧
      tok.length ≤ 9 ∧ (∀ x ∈ tok, isTokChar x = true) := by
  unfold shortcutMatch at h
  split at h
  · rename_i c rest heq
    split at h
    · dsimp only at h
      split at h
      · exact absurd h (by simp)
      · rename_i halpha hne
        split at h
        · rename_i g2' hws
          have hpair := Option.some.inj h
          have ht : t = String.mk (c :: (takeUpTo isTokChar 9 rest).1) :=
            (Prod.mk.injEq _ _ _ _ ▸ hpair).1.symm
          exact ⟨c, (takeUpTo isTokChar 9 rest).1, ht, halpha, hne,
            takeUpTo_length _ _ _, takeUpTo_all _ _ _⟩
        · exact absurd h (by simp)
    · exact absurd h (by simp)
  · exact absurd h (by simp)

theorem shortcut_token_valid (line t g2 : String)
    (h : shortcutMatch line = some (t, g2)) :
    looks_like_lang t = true ∧ 2 ≤ t.length ∧ t.length ≤ 10 := by
  obtain ⟨c, tok, rfl, halpha, hne, hlen9, hall⟩ := shortcutMatch_token line t g2 h
  have hlen : (String.mk (c :: tok)).length = tok.length + 1 := by
    simp [String.length]
  have htokpos : 1 ≤ tok.length := List.length_pos.mpr hne
  refine ⟨?_, ?_, ?_⟩
  · rw [looks_like_lang_spec]
    refine ⟨by omega, by omega, ?_⟩
    intro x hx
    simp only [String.data] at hx
    rcases List.mem_cons.mp hx with rfl | hx
    · exact Or.inl halpha
    · have := hall x hx
      simpa [isTokChar, or_assoc] using this
  · omega
  · omega

/-- Claim C10: every token captured by the shortcut regex has two to ten
characters, all of them letters, hyphens or underscores, and therefore
always passes the language-token validator, making the validator-failure
branch of the shortcut handler unreachable. -/
theorem c10_regex_token_always_valid (line t g2 : String)
    (h : shortcutMatch line = some (t, g2)) :
    looks_like_lang t = true ∧ 2 ≤ t.length ∧ t.length ≤ 10 :=
  shortcut_token_valid line t g2 h

/-- Claim C10, witness at a concrete shortcut line. -/
theorem c10_witness :
    looks_like_lang "ES" = true ∧ 2 ≤ ("ES" : String).length ∧
      ("ES" : String).length ≤ 10 :=
  c10_regex_token_always_valid "@ES hola" "ES" "hola" (by decide)

theorem echoLast_callback_no_send (lastText t lastUser : String) (ctx : Context)
    (res : Option String × Option String) (a : Action)
    (ha : a ∈ dispatchCallback (Dispatch.shortcutEchoLast lastText t lastUser ctx) res) :
    a.isSend = false := by
  rcases res with ⟨t1, d1⟩
  cases t1 with
  | none => simp [dispatchCallback] at ha
  | some tt =>
    by_cases htt : tt = ""
    · simp [dispatchCallback, htt] at ha
    · cases ctx <;>
        · simp [dispatchCallback, htt] at ha
          subst ha
          rfl

/-- Claim C7: an outgoing line (in a chatroom or a private chat) matching
the shortcut pattern with trailing text is suppressed (zap) and dispatches
an asynchronous translate-and-send of the trailing text to the captured
target; a match with no trailing text and a remembered last message for
that conversation is suppressed and dispatches only a local-echo
translation of the remembered text, whose completion callback never
produces a network send; a non-matching line is never intercepted. -/
theorem c7_shortcut_routing (memPub memPriv : Memory) (room user line : String) :
    (∀ t g2, shortcutMatch line = some (t, g2) → pyStrip g2 ≠ "" →
      outgoing_public_chat_event memPub memPriv room line =
        (some "zap",
          ⟨true, some (Dispatch.shortcutSend (pyStrip g2) t (Context.chatroom room)), []⟩)
      ∧ outgoing_private_chat_event memPub memPriv user line =
        (some "zap",
          ⟨true, some (Dispatch.shortcutSend (pyStrip g2) t (Context.privateChat user)), []⟩))
    ∧ (∀ t g2 lastUser lastText, shortcutMatch line = some (t, g2) → pyStrip g2 = "" →
      (mget memPub room = some (lastUser, lastText) →
        outgoing_public_chat_event memPub memPriv room line =
          (some "zap",
            ⟨true, some (Dispatch.shortcutEchoLast lastText t lastUser (Context.chatroom room)),
              []⟩))
      ∧ (mget memPriv user = some (lastUser, lastText) →
        outgoing_private_chat_event memPub memPriv user line =
          (some "zap",
            ⟨true, some (Dispatch.shortcutEchoLast lastText t lastUser (Context.privateChat user)),
              []⟩))
      ∧ (∀ ctx res a,
          a ∈ dispatchCallback
            (Dispatch.shortcutEchoLast lastText t lastUser ctx) res →
          a.isSend = false))
    ∧ (shortcutMatch line = none →
      outgoing_public_chat_event memPub memPriv room line = (none, ⟨false, none, []⟩)
      ∧ outgoing_private_chat_event memPub memPriv user line = (none, ⟨false, none, []⟩)) := by
  refine ⟨?_, ?_, ?_⟩
  · intro t g2 hm hrest
    have hl : looks_like_lang t = true := (shortcut_token_valid line t g2 hm).1
    constructor
    · unfold outgoing_public_chat_event handle_outgoing_shortcut
      rw [hm]
      simp [hl, hrest]
    · unfold outgoing_private_chat_event handle_outgoing_shortcut
      rw [hm]
      simp [hl, hrest]
  · intro t g2 lastUser lastText hm hrest
    have hl : looks_like_lang t = true := (shortcut_token_valid line t g2 hm).1
    refine ⟨?_, ?_, fun ctx res a ha => echoLast_callback_no_send _ _ _ _ _ _ ha⟩
    · intro hmem
      unfold outgoing_public_chat_event handle_outgoing_shortcut
      rw [hm]
      simp [hl, hrest, hmem]
    · intro hmem
      unfold outgoing_private_chat_event handle_outgoing_shortcut
      rw [hm]
      simp [hl, hrest, hmem]
  · intro hm
    constructor
    · unfold outgoing_public_chat_event handle_outgoing_shortcut
      rw [hm]
      rfl
    · unfold outgoing_private_chat_event handle_outgoing_shortcut
      rw [hm]
      rfl

/-- Claim C7, witness: the shortcut line with trailing text at concrete
inputs, on both the chatroom and the private surface. -/
theorem c7_witness :
    outgoing_public_chat_event [] [] "roomA" "@ES buenos dias" =
      (some "zap",
        ⟨true, some (Dispatch.shortcutSend "buenos dias" "ES" (Context.chatroom "roomA")), []⟩)
    ∧ outgoing_private_chat_event [] [] "alice" "@ES buenos dias" =
      (some "zap",
        ⟨true, some (Dispatch.shortcutSend "buenos dias" "ES" (Context.privateChat "alice")), []⟩) :=
  (c7_shortcut_routing [] [] "roomA" "alice" "@ES buenos dias").1 "ES" "buenos dias"
    (by decide) (by decide)

theorem enFamily_iff (d : Option String) :
    enFamily d = true ↔
      ∃ dd, d = some dd ∧ dd ≠ "" ∧ pyStartsWith "EN" (pyToUpper dd) = true := by
  cases d with
  | none => simp [enFamily]
  | some dd => simp [enFamily]

/-- Claim C8 (amended): an incoming line from another user with
auto-translate enabled dispatches a silent background translation to the
configured incoming target; its completion callback produces no echo when
the translated text is empty, when the non-empty detected language
upper-cases to an EN prefix, or when the translated text equals the
original line up to surrounding whitespace, and otherwise produces exactly
one local labeled echo, with a question-mark placeholder when detection is
absent; it never produces a network send. -/
theorem c8_incoming_auto_echo (login : String) (s : Settings)
    (memPub memPriv : Memory) (room user line : String)
    (hauto : s.auto_translate_incoming = true) (huser : user ≠ login) :
    (incoming_public_chat_notification login s memPub room user line).2 =
      some (Dispatch.incomingAuto line (pyOr s.auto_incoming_target_lang "EN-GB") user
        (Context.chatroom room))
    ∧ (incoming_private_chat_notification login s memPriv user line).2 =
      some (Dispatch.incomingAuto line (pyOr s.auto_incoming_target_lang "EN-GB") user
        (Context.privateChat user))
    ∧ (∀ target ctx t d,
        ((t = ""
            ∨ (∃ dd, d = some dd ∧ dd ≠ "" ∧ pyStartsWith "EN" (pyToUpper dd) = true)
            ∨ pyStrip t = pyStrip line) →
          dispatchCallback (Dispatch.incomingAuto line target user ctx) (some t, d) = [])
        ∧ (t ≠ "" →
            (∀ dd, d = some dd → dd ≠ "" → pyStartsWith "EN" (pyToUpper dd) = false) →
            pyStrip t ≠ pyStrip line →
          dispatchCallback (Dispatch.incomingAuto line target user ctx) (some t, d) =
            [(match ctx with
              | Context.chatroom r =>
                Action.echoPublic r
                  ("[" ++ detLabel d ++ "→" ++ target ++ "] " ++ user ++ ": " ++ t)
              | Context.privateChat u =>
                Action.echoPrivate u
                  ("[" ++ detLabel d ++ "→" ++ target ++ "] " ++ user ++ ": " ++ t))])
        ∧ (∀ res a,
            a ∈ dispatchCallback (Dispatch.incomingAuto line target user ctx) res →
            a.isSend = false)
        ∧ detLabel none = "?") := by
  refine ⟨?_, ?_, ?_⟩
  · simp [incoming_public_chat_notification, hauto, huser]
  · simp [incoming_private_chat_notification, hauto, huser]
  · intro target ctx t d
    refine ⟨?_, ?_, ?_, rfl⟩
    · intro hsupp
      rcases hsupp with ht | hen | heq
      · simp [dispatchCallback, ht]
      · have he : enFamily d = true := (enFamily_iff d).mpr hen
        by_cases ht : t = "" <;> simp [dispatchCallback, ht, he]
      · by_cases ht : t = "" <;> simp [dispatchCallback, ht, heq]
    · intro ht hd hstrip
      have he : enFamily d = false := by
        rw [← Bool.not_eq_true, enFamily_iff]
        rintro ⟨dd, rfl, hdd, hstart⟩
        rw [hd dd rfl hdd] at hstart
        exact absurd hstart (by simp)
      cases ctx <;> simp [dispatchCallback, ht, he, hstrip]
    · intro res a ha
      rcases res with ⟨t1, d1⟩
      cases t1 with
      | none => simp [dispatchCallback] at ha
      | some tt =>
        by_cases htt : tt = ""
        · simp [dispatchCallback, htt] at ha
        · by_cases hen : (enFamily d1 || pyStrip tt == pyStrip line) = true
          · simp [dispatchCallback, htt, hen] at ha
          · cases ctx <;>
              · simp [dispatchCallback, htt, hen] at ha
                subst ha
                rfl

/-- Claim C8, counterexample to the claim as stated: a delivered result
whose translated text is the empty string is suppressed by the callback
even though the detected language is not English-family and the text
differs from the original line, so no echo is produced where the claim
requires exactly one. -/
theorem c8_counterexample :
    dispatchCallback (Dispatch.incomingAuto "hola" "EN-GB" "bob" (Context.chatroom "r"))
      (some "", some "DE") = []
    ∧ pyStartsWith "EN" (pyToUpper "DE") = false
    ∧ pyStrip "" ≠ pyStrip "hola" := by decide

/-- Claim C8, witness: a concrete incoming translation that is echoed with
its label. -/
theorem c8_witness :
    dispatchCallback (Dispatch.incomingAuto "hola" "EN-GB" "bob" (Context.chatroom "r"))
      (some "Hallo", some "DE") = [Action.echoPublic "r" "[DE→EN-GB] bob: Hallo"] := by
  have h := ((c8_incoming_auto_echo "me" ⟨"k", "DE", true, true, "EN-GB"⟩ [] [] "r"
      "bob" "hola" rfl (by decide)).2.2 "EN-GB" (Context.chatroom "r") "Hallo"
      (some "DE")).2.1 (by decide)
    (by
      intro dd hdd hne
      have : dd = "DE" := by injection hdd with h2; exact h2.symm
      subst this
      decide)
    (by decide)
  exact h

end DeeplTranslate
